import Mathlib

/-!
Verification of the filebro process-orchestration backend.

Shallow embedding of the worker / orchestrator code in
src/research/hybrid.py and src/research/orchestratorUI.py, and of the
navigation dispatch in src/fb_qt_backend.py, with theorems checking the
stated properties of the design document.
-/

namespace FileBro

/-- Task status enum (hybrid.py lines 18-22, orchestratorUI.py lines 20-24). -/
inductive TaskStatus where
  | pending
  | running
  | completed
  | failed
deriving DecidableEq, Repr

/-- Opaque Python values (task arguments, results).  Python None is PyVal.none. -/
inductive PyVal where
  | none
  | int (n : Int)
  | str (s : String)
  | bool (b : Bool)
deriving DecidableEq, Repr

/-- A raised Python exception: its str() rendering, its formatted traceback,
and whether it is a TypeError. -/
structure PyErr where
  pyStr : String
  trace : String
  isTypeError : Bool
deriving DecidableEq, Repr

/-- The error string built by the worker on task failure
(hybrid.py line 83, orchestratorUI.py line 91):
str(e) followed by a newline and traceback.format_exc(). -/
def errorMsg (e : PyErr) : String :=
  e.pyStr ++ "\n" ++ e.trace

/-- Abstract model of a submitted task function.  `params` is the set of
keyword-parameter names the function declares, `varKw` whether it takes
arbitrary keyword arguments.  When invocation succeeds, the execution makes
the sequence `calls` of progress_callback invocations (fraction, message)
and then either returns a value or raises (`outcome`). -/
structure TaskFunc where
  params : List String
  varKw : Bool
  calls : List (ℚ × String)
  outcome : Except PyErr PyVal

/-- A submitted task: caller-supplied id, function and keyword-argument keys
(hybrid.py lines 219-224).  Positional arguments do not affect any claim. -/
structure Task where
  id : String
  func : TaskFunc
  kwargs : List String

/-- Python call semantics for keyword arguments: whether invoking `f` with
keyword keys `kwargs` is accepted (every key is a declared parameter, or the
function takes arbitrary keyword arguments). -/
def kwAccepted (f : TaskFunc) (kwargs : List String) : Bool :=
  kwargs.all (fun k => f.params.contains k) || f.varKw

/-- The TypeError Python raises for an unexpected keyword argument. -/
def typeErrorOf (f : TaskFunc) : PyErr :=
  { pyStr := "TypeError: got an unexpected keyword argument"
    trace := "Traceback (most recent call last): " ++ String.intercalate " " f.params
    isTypeError := true }

/-- Invoking a task function with keyword keys `kwargs`: if some key is not
accepted, Python raises a TypeError before the function body runs (so no
progress_callback call is made); otherwise the body runs, making its calls
and producing its outcome. -/
def callFunc (f : TaskFunc) (kwargs : List String) :
    List (ℚ × String) × Except PyErr PyVal :=
  if kwAccepted f kwargs then (f.calls, f.outcome)
  else ([], Except.error (typeErrorOf f))

/-- ProgressUpdate dataclass (orchestratorUI.py lines 27-43; hybrid.py 25-33). -/
structure ProgressUpdate where
  worker_id : Nat
  task_id : String
  status : TaskStatus
  progress : ℚ
  message : String
  result : PyVal
  error : Option String
  timestamp : String
deriving DecidableEq, Repr

/-- A Running event as built by report_progress
(hybrid.py lines 92-111, orchestratorUI.py lines 99-118). -/
def runningUpdate (wid : Nat) (tid : String) (p : ℚ) (msg : String) :
    ProgressUpdate :=
  { worker_id := wid
    task_id := tid
    status := TaskStatus.running
    progress := p
    message := msg
    result := PyVal.none
    error := Option.none
    timestamp := "" }

/-- The Completed event emitted on normal return
(hybrid.py lines 78-80, orchestratorUI.py lines 86-88). -/
def completedUpdate (wid : Nat) (tid : String) (r : PyVal) : ProgressUpdate :=
  { worker_id := wid
    task_id := tid
    status := TaskStatus.completed
    progress := 1
    message := "Task completed"
    result := r
    error := Option.none
    timestamp := "" }

/-- The Failed event emitted when the function raises
(hybrid.py lines 82-86, orchestratorUI.py lines 90-94): note the code
reports progress 0.0 on failure. -/
def failedUpdate (wid : Nat) (tid : String) (e : PyErr) : ProgressUpdate :=
  { worker_id := wid
    task_id := tid
    status := TaskStatus.failed
    progress := 0
    message := "Task failed"
    result := PyVal.none
    error := Option.some (errorMsg e)
    timestamp := "" }

/-- The keyword keys actually used at invocation: the worker sets
kwargs['progress_callback'] unconditionally (hybrid.py line 73,
orchestratorUI.py line 82). -/
def effectiveKwargs (t : Task) : List String :=
  if "progress_callback" ∈ t.kwargs then t.kwargs
  else t.kwargs ++ ["progress_callback"]

/-- The terminal event emitted after the invocation finishes: Completed on
normal return, Failed on a caught exception. -/
def terminalUpdate (wid : Nat) (tid : String) : Except PyErr PyVal → ProgressUpdate
  | Except.ok r => completedUpdate wid tid r
  | Except.error e => failedUpdate wid tid e

/-- The sequence of progress events one worker emits for one task
(body of Worker.run for a non-sentinel task, hybrid.py lines 59-86):
Running/0.0 first, then one Running event per progress_callback call,
then Completed/1.0 on return or Failed/0.0 on exception. -/
def taskEvents (wid : Nat) (t : Task) : List ProgressUpdate :=
  runningUpdate wid t.id 0 "Task started"
    :: ((callFunc t.func (effectiveKwargs t)).1.map
        (fun c => runningUpdate wid t.id c.1 c.2)
      ++ [terminalUpdate wid t.id (callFunc t.func (effectiveKwargs t)).2])

/-- Worker.run over the (finite, modelled) contents of the task queue
(hybrid.py lines 51-90, orchestratorUI.py lines 61-97).  Option.none is the
poison-pill sentinel, ending the loop with no event; an ephemeral worker
stops after one real task; a core worker keeps looping. -/
def workerRun (wid : Nat) (ephemeral : Bool) :
    List (Option Task) → List ProgressUpdate
  | [] => []
  | Option.none :: _ => []
  | Option.some t :: rest =>
      taskEvents wid t ++ (if ephemeral then [] else workerRun wid ephemeral rest)

/-- The progress values of a task's emitted events, in emission order. -/
def progressSeq (wid : Nat) (t : Task) : List ℚ :=
  (taskEvents wid t).map ProgressUpdate.progress

/-- Task record created at submission (hybrid.py lines 226-232,
orchestratorUI.py lines 319-325). -/
structure TaskRecord where
  status : TaskStatus
  progress : ℚ
  result : PyVal
  error : Option String
  submitted : String
  updated : Option String
deriving DecidableEq, Repr

/-- The Pending record written by submit_task. -/
def initialRecord (now : String) : TaskRecord :=
  { status := TaskStatus.pending
    progress := 0
    result := PyVal.none
    error := Option.none
    submitted := now
    updated := Option.none }

/-- Applying one ProgressUpdate to a registry record: overwrites
status/progress/result/error/updated (orchestratorUI.py lines 344-352). -/
def applyToRecord (r : TaskRecord) (u : ProgressUpdate) : TaskRecord :=
  { r with
    status := u.status
    progress := u.progress
    result := u.result
    error := u.error
    updated := Option.some u.timestamp }

/-! ### Task Registry and broadcaster drain
(hybrid.py get_progress lines 255-278; orchestratorUI.py _broadcast_progress
lines 332-381).  The registry is a Python dict, modelled as an
insertion-ordered association list. -/

/-- The task registry: task id to its status record. -/
abbrev Registry := List (String × TaskRecord)

/-- Python dict lookup. -/
def lookupReg (reg : Registry) (id : String) : Option TaskRecord :=
  (reg.find? (fun e => e.1 == id)).map Prod.snd

/-- Overwrite the record stored under an existing key. -/
def updateReg (reg : Registry) (id : String) (r : TaskRecord) : Registry :=
  reg.map (fun e => if e.1 == id then (e.1, r) else e)

/-- Python dict assignment: overwrite if the key exists, else append. -/
def insertReg (reg : Registry) (id : String) (r : TaskRecord) : Registry :=
  if (lookupReg reg id).isSome then updateReg reg id r else reg ++ [(id, r)]

/-- self.task_registry[update.task_id].update({...})
(orchestratorUI.py lines 344-352, hybrid.py lines 265-270): raises KeyError
(the Except.error case) when the task id is unknown. -/
def applyUpdate (reg : Registry) (u : ProgressUpdate) : Except Unit Registry :=
  match lookupReg reg u.task_id with
  | Option.some r => Except.ok (updateReg reg u.task_id (applyToRecord r u))
  | Option.none => Except.error ()

/-- The drain phase of one broadcaster cycle (orchestratorUI.py lines
337-354): pop events from the progress queue, append each to the batch,
then apply it to the registry; the bare except turns any KeyError into a
break, leaving the rest of the queue for the next cycle.  Returns the new
registry, the drained batch (in emission order) and the remaining queue. -/
def drainLoop (reg : Registry) :
    List ProgressUpdate → Registry × List ProgressUpdate × List ProgressUpdate
  | [] => (reg, [], [])
  | u :: rest =>
    match applyUpdate reg u with
    | Except.ok reg2 =>
        let r := drainLoop reg2 rest
        (r.1, u :: r.2.1, r.2.2)
    | Except.error _ => (reg, [u], rest)

/-! ### Client sessions and broadcast fan-out
(orchestratorUI.py _broadcast_progress lines 356-371). -/

/-- A connected UI client session: its active flag and its connection,
modelled by which of its successive send attempts succeed. -/
structure Session where
  active : Bool
  sendOk : Nat → Bool

/-- Deliver the drained updates to one connection, starting at send
attempt k: stops at the first failing send (the raised exception aborts
only this session loop) and reports whether the session stays active. -/
def deliverTo (ok : Nat → Bool) : Nat → List ProgressUpdate → List ProgressUpdate × Bool
  | _, [] => ([], true)
  | k, u :: us =>
    if ok k then
      let r := deliverTo ok (k + 1) us
      (u :: r.1, r.2)
    else ([], false)

/-- The fan-out phase of one broadcaster cycle: for each currently active
session, send every drained update in order; a send failure marks only that
session inactive and the outer per-client loop continues.  Returns, per
session, the updates it received and its new state. -/
def broadcastAll (sessions : List Session) (updates : List ProgressUpdate) :
    List (List ProgressUpdate × Session) :=
  sessions.map (fun s =>
    if s.active then
      let r := deliverTo s.sendOk 0 updates
      (r.1, { s with active := r.2 })
    else ([], s))

/-! ### Worker Pool Manager state machine
(HybridOrchestrator, hybrid.py lines 114-330). -/

/-- Constructor arguments of HybridOrchestrator (hybrid.py lines 117-134). -/
structure Config where
  core_workers : Nat
  max_workers : Nat
  queue_threshold : Nat

/-- The orchestrator's mutable state: worker pools hold one liveness flag
per spawned process; the queue holds the ids of enqueued tasks. -/
structure OrchState where
  running : Bool
  core_pool : List Bool
  ondemand_pool : List Bool
  queue : List String
  registry : Registry

/-- Number of alive processes among a pool's liveness flags. -/
def countAlive (l : List Bool) : Nat := l.count true

/-- Live workers: alive core workers plus alive on-demand workers. -/
def liveWorkers (s : OrchState) : Nat :=
  countAlive s.core_pool + countAlive s.ondemand_pool

/-- State right after __init__ (hybrid.py lines 136-145). -/
def initState : OrchState :=
  { running := false
    core_pool := []
    ondemand_pool := []
    queue := []
    registry := [] }

/-- start() (hybrid.py lines 147-161): no-op when already running, else
spawn core_workers persistent workers. -/
def startT (cfg : Config) (s : OrchState) : OrchState :=
  if s.running then s
  else
    { s with
      running := true
      core_pool := s.core_pool ++ List.replicate cfg.core_workers true }

/-- _spawn_ondemand_worker (hybrid.py lines 169-184): refuses when the
total tracked pool size (dead on-demand entries included) has reached
max_workers, else starts one ephemeral worker. -/
def spawnOndemand (cfg : Config) (s : OrchState) : OrchState :=
  if cfg.max_workers ≤ s.core_pool.length + s.ondemand_pool.length then s
  else { s with ondemand_pool := s.ondemand_pool ++ [true] }

/-- _check_and_scale (hybrid.py lines 199-210): spawn one on-demand worker
when the queue depth has reached queue_threshold and the active workers
(core pool size plus alive on-demand workers) are below max_workers. -/
def check_and_scale (cfg : Config) (s : OrchState) : OrchState :=
  if cfg.queue_threshold ≤ s.queue.length ∧
      s.core_pool.length + countAlive s.ondemand_pool < cfg.max_workers then
    spawnOndemand cfg s
  else s

/-- The RuntimeError raised by submit_task before start() (hybrid.py
line 217); the design document names it NotRunningError. -/
inductive RuntimeErr where
  | notRunning
deriving DecidableEq, Repr

/-- submit_task (hybrid.py lines 212-240): raises when the pool is not
running -- before creating the Pending record or touching the queue --
otherwise records the Pending entry, enqueues the task and runs the
autoscale check. -/
def submit_task (cfg : Config) (s : OrchState) (tid : String) (now : String) :
    Except RuntimeErr OrchState :=
  if s.running = false then Except.error RuntimeErr.notRunning
  else
    Except.ok (check_and_scale cfg
      { s with
        registry := insertReg s.registry tid (initialRecord now)
        queue := s.queue ++ [tid] })

/-- The state a caller observes after invoking submit_task: unchanged when
the call raised. -/
def submitRun (cfg : Config) (s : OrchState) (tid : String) (now : String) :
    OrchState :=
  match submit_task cfg s tid now with
  | Except.ok s2 => s2
  | Except.error _ => s

/-- _cleanup_finished_workers (hybrid.py lines 186-197): reap exited
on-demand workers. -/
def cleanupT (s : OrchState) : OrchState :=
  { s with ondemand_pool := s.ondemand_pool.filter (fun b => b) }

/-- One poll cycle of the manager (get_progress / the broadcaster loop,
orchestratorUI.py lines 374-375): reap, then autoscale check. -/
def pollT (cfg : Config) (s : OrchState) : OrchState :=
  check_and_scale cfg (cleanupT s)

/-- A worker takes one task off the shared queue. -/
def dequeueT (s : OrchState) : OrchState :=
  { s with queue := s.queue.tail }

/-- On-demand worker i's process exits (after its single task). -/
def exitT (s : OrchState) (i : Nat) : OrchState :=
  { s with ondemand_pool := s.ondemand_pool.set i false }

/-- shutdown() (hybrid.py lines 309-330): no-op when not running, else the
sentinels stop every core worker, remaining on-demand workers are joined or
terminated, and the queue has been drained by the joined core workers. -/
def shutdownT (s : OrchState) : OrchState :=
  if s.running = false then s
  else
    { s with
      running := false
      core_pool := s.core_pool.map (fun _ => false)
      ondemand_pool := s.ondemand_pool.map (fun _ => false)
      queue := [] }

/-- The events that drive the orchestrator state.  The poll cycle runs on
the manager's polling loops, which operate while the pool runs. -/
inductive Step (cfg : Config) : OrchState → OrchState → Prop where
  | start (s : OrchState) : Step cfg s (startT cfg s)
  | submit (s : OrchState) (tid now : String) : Step cfg s (submitRun cfg s tid now)
  | dequeue (s : OrchState) : Step cfg s (dequeueT s)
  | workerExit (s : OrchState) (i : Nat) : Step cfg s (exitT s i)
  | poll (s : OrchState) : s.running = true → Step cfg s (pollT cfg s)
  | shutdown (s : OrchState) : Step cfg s (shutdownT s)

/-- States reachable from the freshly constructed orchestrator. -/
inductive Reachable (cfg : Config) : OrchState → Prop where
  | init : Reachable cfg initState
  | step {s s2 : OrchState} : Reachable cfg s → Step cfg s s2 → Reachable cfg s2

/-! ### Navigation dispatch (fb_qt_backend.py lines 104-110 and 229-253). -/

/-- What one driver lookup can produce: listing data, the distinct
authentication-required signal (fb_drivers.NeedAuthentication), or a
generic exception. -/
inductive LookupResult where
  | ok (files : List String) (dirs : List String) (details : List (String × String))
  | needAuth
  | err (msg : String)

/-- A registered driver module: matches(path) and lookup(path).
(matches is a reserved word in Lean, hence the Fn suffix.) -/
structure Driver where
  matchesFn : String → Bool
  lookup : String → LookupResult

/-- A navigate message after _handle_message stored the originating
connection in it (fb_qt_backend.py line 88). -/
structure NavMessage where
  nav : String
  conn : Nat
  files : List String
  dirs : List String
  details : List (String × String)
  navError : Option String

/-- Which signal Navigation.lookup emits, with the message it carries. -/
inductive NavEmit where
  | results (m : NavMessage)
  | error (m : NavMessage)
  | request_auth (m : NavMessage)

/-- The body after a matching driver is found (fb_qt_backend.py lines
240-253): results on success, request_auth on NeedAuthentication, error
with the stringified exception otherwise. -/
def dispatchDriver (d : Driver) (m : NavMessage) : NavEmit :=
  match d.lookup m.nav with
  | LookupResult.ok fs ds det =>
      NavEmit.results
        { m with
          files := fs
          dirs := ds
          details := det }
  | LookupResult.needAuth => NavEmit.request_auth m
  | LookupResult.err e =>
      NavEmit.error { m with navError := Option.some e }

/-- Navigation.lookup (fb_qt_backend.py lines 229-253): try drivers in
registration order, first match wins; with no match, emit the error signal
with a resolution failure message. -/
def navLookup (drivers : List Driver) (m : NavMessage) : NavEmit :=
  match drivers.find? (fun d => d.matchesFn m.nav) with
  | Option.some d => dispatchDriver d m
  | Option.none =>
      NavEmit.error { m with navError := Option.some "Could not Resolve path!" }

/-- Where each emitted navigation signal is sent: the backend connects the
results and error signals to ClientHandler.broadcast, which (fb_qt_backend.py
lines 104-110) sends to exactly the connection stored in the message -- the
originating session; request_auth is a separate signal, not routed to
broadcast (fb_qt_backend.py lines 24-25). -/
def navRecipients : NavEmit → List Nat
  | NavEmit.results m => [m.conn]
  | NavEmit.error m => [m.conn]
  | NavEmit.request_auth _ => []

/-! ### Auxiliary notions used by the claim statements. -/

/-- The allowed evolution of one task's recorded status: unchanged, or one
of the transitions Pending to Running, Running to Completed, Running to
Failed. -/
def statusStep (a b : TaskStatus) : Prop :=
  a = b ∨ (a = TaskStatus.pending ∧ b = TaskStatus.running) ∨
    (a = TaskStatus.running ∧ (b = TaskStatus.completed ∨ b = TaskStatus.failed))

/-- s contains sub as a contiguous substring. -/
def containsSub (s sub : String) : Prop :=
  ∃ a b : String, s = a ++ sub ++ b

/-- Example failing task: its function accepts the callback, reports
progress 1.0, then raises.  Used by the counterexamples. -/
def exFailTask : Task :=
  { id := "t1"
    func :=
      { params := ["progress_callback"]
        varKw := false
        calls := [((1 : ℚ), "almost done")]
        outcome := Except.error { pyStr := "boom", trace := "tb", isTypeError := false } }
    kwargs := [] }

/-- Example succeeding task for the witnesses: accepts the callback,
reports progress 1.0, then returns 4. -/
def exOkTask : Task :=
  { id := "t2"
    func :=
      { params := ["progress_callback"]
        varKw := false
        calls := [((1 : ℚ), "almost done")]
        outcome := Except.ok (PyVal.int 4) }
    kwargs := [] }

/-- Example task whose function declares neither progress_callback nor
arbitrary keyword arguments.  Used by the C10 witness. -/
def exNoCbTask : Task :=
  { id := "t3"
    func :=
      { params := ["x"]
        varKw := false
        calls := [((1 : ℚ), "done")]
        outcome := Except.ok (PyVal.int 4) }
    kwargs := ["x"] }

/-- The pool-safety invariant: at most max_workers processes are alive, and
the core tier is fully alive exactly while the pool runs. -/
def Inv (cfg : Config) (s : OrchState) : Prop :=
  liveWorkers s ≤ cfg.max_workers ∧
  (s.running = false → countAlive s.core_pool = 0 ∧ countAlive s.ondemand_pool = 0) ∧
  (s.running = true → countAlive s.core_pool = cfg.core_workers)

/-! ## Helper lemmas -/

/-- getLast? of a cons onto a list ending in x. -/
theorem getLast?_cons_concat (a x : α) (l : List α) :
    (a :: (l ++ [x])).getLast? = some x := by
  rw [← List.cons_append]
  exact List.getLast?_concat _

/-- Invoking an accepted function yields its declared calls and outcome. -/
theorem callFunc_accepted {f : TaskFunc} {ks : List String}
    (h : kwAccepted f ks = true) : callFunc f ks = (f.calls, f.outcome) := by
  simp [callFunc, h]

/-- The string "progress_callback" is always among the keys used at
invocation. -/
theorem progress_callback_mem (t : Task) :
    "progress_callback" ∈ effectiveKwargs t := by
  unfold effectiveKwargs
  by_cases h : "progress_callback" ∈ t.kwargs <;> simp [h]

/-! ## Claim C3 -/

/-- C3: a sentinel ends the worker loop with no event; for a real task the
first emitted event is Running/0.0; on normal return the last event is
Completed/1.0 carrying the return value; an ephemeral worker processes
exactly one task; a core worker continues with the rest of the queue. -/
theorem claim_C3 (wid : Nat) (t : Task) (r : PyVal) (q : List (Option Task)) :
    workerRun wid true (Option.none :: q) = [] ∧
    workerRun wid false (Option.none :: q) = [] ∧
    (taskEvents wid t).head? = some (runningUpdate wid t.id 0 "Task started") ∧
    (kwAccepted t.func (effectiveKwargs t) = true → t.func.outcome = Except.ok r →
      (taskEvents wid t).getLast? = some (completedUpdate wid t.id r) ∧
      (completedUpdate wid t.id r).progress = 1 ∧
      (completedUpdate wid t.id r).result = r) ∧
    workerRun wid true (Option.some t :: q) = taskEvents wid t ∧
    workerRun wid false (Option.some t :: q) = taskEvents wid t ++ workerRun wid false q := by
  refine ⟨rfl, rfl, rfl, ?_, by simp [workerRun], by simp [workerRun]⟩
  intro hacc hout
  refine ⟨?_, rfl, rfl⟩
  unfold taskEvents
  rw [getLast?_cons_concat, callFunc_accepted hacc, hout]
  rfl

/-- C3 witness: concrete run on a task returning PyVal.int 4. -/
theorem claim_C3_witness :
    (taskEvents 0 exOkTask).getLast? = some (completedUpdate 0 "t2" (PyVal.int 4)) ∧
    (completedUpdate 0 "t2" (PyVal.int 4)).progress = 1 :=
  ⟨((claim_C3 0 exOkTask (PyVal.int 4) []).2.2.2.1 (by decide) rfl).1,
   ((claim_C3 0 exOkTask (PyVal.int 4) []).2.2.2.1 (by decide) rfl).2.1⟩

/-! ## Claim C10 -/

/-- C10: the worker always passes the progress_callback key; a function
that neither declares it nor takes arbitrary keyword arguments raises a
TypeError at invocation, is recorded Failed and never Completed. -/
theorem claim_C10 (wid : Nat) (t : Task)
    (hnp : "progress_callback" ∉ t.func.params)
    (hvk : t.func.varKw = false) :
    "progress_callback" ∈ effectiveKwargs t ∧
    callFunc t.func (effectiveKwargs t) = ([], Except.error (typeErrorOf t.func)) ∧
    (typeErrorOf t.func).isTypeError = true ∧
    ((taskEvents wid t).getLast?).map ProgressUpdate.status = some TaskStatus.failed ∧
    ∀ u ∈ taskEvents wid t, u.status ≠ TaskStatus.completed := by
  have hmem := progress_callback_mem t
  have hall : (effectiveKwargs t).all (fun k => t.func.params.contains k) = false := by
    rw [List.all_eq_false]
    exact ⟨"progress_callback", hmem, by simpa using hnp⟩
  have hacc : kwAccepted t.func (effectiveKwargs t) = false := by
    unfold kwAccepted
    rw [hall, hvk]
    rfl
  have hcf : callFunc t.func (effectiveKwargs t) =
      ([], Except.error (typeErrorOf t.func)) := by
    simp [callFunc, hacc]
  refine ⟨hmem, hcf, rfl, ?_, ?_⟩
  · simp [taskEvents, hcf, terminalUpdate, failedUpdate]
  · intro u hu
    simp [taskEvents, hcf, terminalUpdate] at hu
    rcases hu with h | h <;> subst h <;> simp [runningUpdate, failedUpdate]

/-- C10 witness: a task whose function only declares parameter x. -/
theorem claim_C10_witness :
    callFunc exNoCbTask.func (effectiveKwargs exNoCbTask) =
      ([], Except.error (typeErrorOf exNoCbTask.func)) ∧
    ((taskEvents 0 exNoCbTask).getLast?).map ProgressUpdate.status =
      some TaskStatus.failed :=
  ⟨(claim_C10 0 exNoCbTask (by decide) rfl).2.1,
   (claim_C10 0 exNoCbTask (by decide) rfl).2.2.2.1⟩

/-! ## Claim C7 -/

/-- C7: an update for an unknown task id raises KeyError inside the drain
loop, which the bare except turns into a break: the registry is unchanged,
no exception escapes the broadcaster cycle, and the remaining queue is kept
for the next cycle. -/
theorem claim_C7 (reg : Registry) (u : ProgressUpdate)
    (rest : List ProgressUpdate) (h : lookupReg reg u.task_id = Option.none) :
    applyUpdate reg u = Except.error () ∧
    drainLoop reg (u :: rest) = (reg, [u], rest) := by
  have happ : applyUpdate reg u = Except.error () := by simp [applyUpdate, h]
  exact ⟨happ, by simp [drainLoop, happ]⟩

/-- C7 witness: an unknown-id update against the empty registry. -/
theorem claim_C7_witness :
    applyUpdate [] (runningUpdate 0 "t9" 0 "m") = Except.error () ∧
    drainLoop [] [runningUpdate 0 "t9" 0 "m"] = ([], [runningUpdate 0 "t9" 0 "m"], []) :=
  claim_C7 [] (runningUpdate 0 "t9" 0 "m") [] rfl

/-! ## Claim C6 -/

/-- C6: submit_task before start() raises NotRunningError before touching
the registry or the queue: no successor state is produced at all. -/
theorem claim_C6 (cfg : Config) (s : OrchState) (tid now : String)
    (h : s.running = false) :
    submit_task cfg s tid now = Except.error RuntimeErr.notRunning ∧
    ∀ s2, submit_task cfg s tid now ≠ Except.ok s2 := by
  simp [submit_task, h]

/-- C6 witness: submission against the freshly constructed orchestrator. -/
theorem claim_C6_witness :
    submit_task { core_workers := 1, max_workers := 2, queue_threshold := 3 }
        initState "t" "" = Except.error RuntimeErr.notRunning :=
  (claim_C6 { core_workers := 1, max_workers := 2, queue_threshold := 3 }
    initState "t" "" rfl).1

/-! ## Claims C1 and C2: progress sequences and failure reporting -/

/-- Prepending a lower bound to a non-decreasing list. -/
theorem chain_le_head (c0 : ℚ) (cs : List ℚ) (h0 : ∀ c ∈ cs, c0 ≤ c)
    (hm : List.Chain' (fun a b => a ≤ b) cs) :
    List.Chain' (fun a b => a ≤ b) (c0 :: cs) := by
  rw [List.chain'_cons']
  exact ⟨fun y hy => h0 y (List.mem_of_mem_head? hy), hm⟩

/-- Appending an upper bound to a non-decreasing list. -/
theorem chain_le_concat (cs : List ℚ) (x : ℚ) (h1 : ∀ c ∈ cs, c ≤ x)
    (hm : List.Chain' (fun a b => a ≤ b) cs) :
    List.Chain' (fun a b => a ≤ b) (cs ++ [x]) := by
  rw [List.chain'_append]
  refine ⟨hm, List.chain'_singleton x, ?_⟩
  intro a ha b hb
  have hb2 : x = b := by simpa using hb
  subst hb2
  exact h1 a (List.mem_of_mem_getLast? ha)

/-- The progress values a worker emits for one task: 0 first, then the
callback fractions, then the terminal event's value. -/
theorem progressSeq_eq (wid : Nat) (t : Task) :
    progressSeq wid t =
      0 :: ((callFunc t.func (effectiveKwargs t)).1.map Prod.fst
        ++ [(terminalUpdate wid t.id (callFunc t.func (effectiveKwargs t)).2).progress]) := by
  unfold progressSeq taskEvents
  simp [List.map_append, List.map_map, runningUpdate, Function.comp]

/-- C1 counterexample: the function of exFailTask reports progress 1.0 and
then raises; the Failed event carries progress 0.0, so the emitted progress
sequence 0, 1, 0 is not non-decreasing. -/
theorem claim_C1_counterexample :
    ¬ List.Chain' (fun a b => a ≤ b) (progressSeq 0 exFailTask) := by
  intro h
  have heq : progressSeq 0 exFailTask = [0, 1, 0] := rfl
  rw [heq] at h
  rcases List.chain'_cons.mp h with ⟨-, h2⟩
  rcases List.chain'_cons.mp h2 with ⟨h3, -⟩
  norm_num at h3

/-- C1 amended: for a task whose function reports non-decreasing progress
values within 0..1, the emitted progress sequence is non-decreasing and ends
at exactly 1 when the task completes; when the task fails, the final Failed
event carries progress 0 (strictly below 1) and the sequence before it is
non-decreasing. -/
theorem claim_C1_amended (wid : Nat) (t : Task)
    (hmono : List.Chain' (fun a b => a ≤ b) (t.func.calls.map Prod.fst))
    (hlo : ∀ c ∈ t.func.calls, 0 ≤ c.1)
    (hhi : ∀ c ∈ t.func.calls, c.1 ≤ 1) :
    ∃ u, (taskEvents wid t).getLast? = some u ∧
      (u.status = TaskStatus.completed →
        u.progress = 1 ∧ List.Chain' (fun a b => a ≤ b) (progressSeq wid t)) ∧
      (u.status = TaskStatus.failed →
        u.progress = 0 ∧ u.progress < 1 ∧
        List.Chain' (fun a b => a ≤ b) ((progressSeq wid t).dropLast)) := by
  have hlast : (taskEvents wid t).getLast?
      = some (terminalUpdate wid t.id (callFunc t.func (effectiveKwargs t)).2) := by
    unfold taskEvents
    rw [getLast?_cons_concat]
  refine ⟨terminalUpdate wid t.id (callFunc t.func (effectiveKwargs t)).2, hlast, ?_, ?_⟩
  all_goals by_cases hacc : kwAccepted t.func (effectiveKwargs t) = true
  case pos =>
    rw [callFunc_accepted hacc]
    cases hout : t.func.outcome with
    | ok r =>
        intro _
        refine ⟨rfl, ?_⟩
        rw [progressSeq_eq, callFunc_accepted hacc, hout]
        apply chain_le_head
        · intro c hc
          rcases (List.mem_append.mp hc) with h | h
          · rcases List.mem_map.mp h with ⟨a, ha, rfl⟩
            exact hlo a ha
          · have : c = (terminalUpdate wid t.id (Except.ok r)).progress := by simpa using h
            subst this
            norm_num [terminalUpdate, completedUpdate]
        · apply chain_le_concat
          · intro c hc
            rcases List.mem_map.mp hc with ⟨a, ha, rfl⟩
            exact le_trans (hhi a ha) (by norm_num [terminalUpdate, completedUpdate])
          · exact hmono
    | error e =>
        intro hst
        simp [terminalUpdate, failedUpdate] at hst
  case neg =>
    have hacc2 : kwAccepted t.func (effectiveKwargs t) = false := by
      simpa using hacc
    intro hst
    simp [callFunc, hacc2, terminalUpdate, failedUpdate] at hst
  case pos =>
    rw [callFunc_accepted hacc]
    cases hout : t.func.outcome with
    | ok r =>
        intro hst
        simp [terminalUpdate, completedUpdate] at hst
    | error e =>
        intro _
        refine ⟨rfl, by norm_num [terminalUpdate, failedUpdate], ?_⟩
        rw [progressSeq_eq, callFunc_accepted hacc, hout]
        rw [← List.cons_append, List.dropLast_concat]
        apply chain_le_head
        · intro c hc
          rcases List.mem_map.mp hc with ⟨a, ha, rfl⟩
          exact hlo a ha
        · exact hmono
  case neg =>
    have hacc2 : kwAccepted t.func (effectiveKwargs t) = false := by
      simpa using hacc
    intro _
    have hcf : callFunc t.func (effectiveKwargs t)
        = ([], Except.error (typeErrorOf t.func)) := by
      simp [callFunc, hacc2]
    refine ⟨by simp [hcf, terminalUpdate, failedUpdate], ?_, ?_⟩
    · norm_num [hcf, terminalUpdate, failedUpdate]
    · rw [progressSeq_eq, hcf]
      simp [List.dropLast, List.Chain']

/-- C1 witness: the amended statement evaluated on a completing task. -/
theorem claim_C1_witness :
    ∃ u, (taskEvents 0 exOkTask).getLast? = some u ∧
      (u.status = TaskStatus.completed →
        u.progress = 1 ∧ List.Chain' (fun a b => a ≤ b) (progressSeq 0 exOkTask)) ∧
      (u.status = TaskStatus.failed →
        u.progress = 0 ∧ u.progress < 1 ∧
        List.Chain' (fun a b => a ≤ b) ((progressSeq 0 exOkTask).dropLast)) :=
  claim_C1_amended 0 exOkTask (by simp [exOkTask]) (by norm_num [exOkTask])
    (by norm_num [exOkTask])

/-- The worker's failure report is never the empty string. -/
theorem errorMsg_ne_empty (e : PyErr) : errorMsg e ≠ "" := by
  intro h
  have h2 := congrArg String.length h
  rw [errorMsg, String.length_append, String.length_append,
    String.length_empty] at h2
  have h3 : ("\n" : String).length = 1 := rfl
  rw [h3] at h2
  omega

/-- No Running event counts as Failed. -/
theorem countP_failed_map (wid : Nat) (tid : String) (cs : List (ℚ × String)) :
    (cs.map (fun c => runningUpdate wid tid c.1 c.2)).countP
      (fun u => decide (u.status = TaskStatus.failed)) = 0 := by
  rw [List.countP_map, List.countP_eq_zero]
  intro a _
  simp [runningUpdate, Function.comp]

/-- C2 counterexample: the function of exFailTask last reported progress
1.0, but the Failed update it triggers carries progress 0, not 1.0. -/
theorem claim_C2_counterexample :
    ((taskEvents 0 exFailTask).getLast?).map ProgressUpdate.progress = some 0 ∧
    (((taskEvents 0 exFailTask).dropLast).getLast?).map ProgressUpdate.progress
      = some (1 : ℚ) ∧
    (0 : ℚ) ≠ (1 : ℚ) := by
  refine ⟨by rfl, by rfl, by norm_num⟩

/-- C2 amended: when the task function raises, the worker emits exactly one
Failed update, as the final event, with progress 0.0, result None and a
non-empty error string containing the stringified exception and its
traceback; the exception does not escape: a core worker goes on processing
the rest of the queue. -/
theorem claim_C2_amended (wid : Nat) (t : Task) (e : PyErr)
    (hacc : kwAccepted t.func (effectiveKwargs t) = true)
    (hout : t.func.outcome = Except.error e) :
    (taskEvents wid t).countP (fun u => decide (u.status = TaskStatus.failed)) = 1 ∧
    (taskEvents wid t).getLast? = some (failedUpdate wid t.id e) ∧
    (failedUpdate wid t.id e).progress = 0 ∧
    (failedUpdate wid t.id e).result = PyVal.none ∧
    (failedUpdate wid t.id e).error = Option.some (errorMsg e) ∧
    errorMsg e ≠ "" ∧
    containsSub (errorMsg e) e.pyStr ∧
    containsSub (errorMsg e) e.trace ∧
    ∀ q, workerRun wid false (Option.some t :: q)
      = taskEvents wid t ++ workerRun wid false q := by
  have hcf : callFunc t.func (effectiveKwargs t) = (t.func.calls, Except.error e) := by
    rw [callFunc_accepted hacc, hout]
  refine ⟨?_, ?_, rfl, rfl, rfl, errorMsg_ne_empty e, ?_, ?_, fun q => by simp [workerRun]⟩
  · unfold taskEvents
    rw [hcf]
    rw [List.countP_cons, List.countP_append, countP_failed_map]
    simp [terminalUpdate, failedUpdate, runningUpdate]
  · unfold taskEvents
    rw [getLast?_cons_concat, hcf]
    rfl
  · exact ⟨"", "\n" ++ e.trace, by rw [errorMsg, String.empty_append, String.append_assoc]⟩
  · exact ⟨e.pyStr ++ "\n", "", by rw [errorMsg, String.append_empty]⟩

/-- C2 witness: the amended statement evaluated on the failing task. -/
theorem claim_C2_witness :
    (taskEvents 0 exFailTask).countP
      (fun u => decide (u.status = TaskStatus.failed)) = 1 ∧
    (taskEvents 0 exFailTask).getLast?
      = some (failedUpdate 0 "t1" { pyStr := "boom", trace := "tb", isTypeError := false }) :=
  ⟨(claim_C2_amended 0 exFailTask
      { pyStr := "boom", trace := "tb", isTypeError := false } (by decide) rfl).1,
   (claim_C2_amended 0 exFailTask
      { pyStr := "boom", trace := "tb", isTypeError := false } (by decide) rfl).2.1⟩

/-! ## Claim C8: status transitions -/

/-- The statuses a task's registry record passes through are the initial
status followed by the statuses of the applied updates. -/
theorem scanl_status_map (r : TaskRecord) (l : List ProgressUpdate) :
    (List.scanl applyToRecord r l).map TaskRecord.status
      = r.status :: l.map ProgressUpdate.status := by
  induction l generalizing r with
  | nil => simp
  | cons u rest ih => simp [List.scanl_cons, ih, applyToRecord]

/-- A run of Running statuses followed by one more step is a valid chain. -/
theorem chain_status_running (cs : List TaskStatus) (x : TaskStatus)
    (hcs : ∀ c ∈ cs, c = TaskStatus.running)
    (hx : statusStep TaskStatus.running x) :
    List.Chain' statusStep (TaskStatus.running :: (cs ++ [x])) := by
  induction cs with
  | nil => exact List.chain'_cons.mpr ⟨hx, List.chain'_singleton x⟩
  | cons c rest ih =>
      have hc : c = TaskStatus.running := hcs c (by simp)
      subst hc
      rw [List.cons_append, List.chain'_cons]
      exact ⟨Or.inl rfl, ih (fun d hd => hcs d (by simp [hd]))⟩

/-- C8: starting from the Pending record written at submission and applying
the worker's updates in emission order, the recorded status only ever moves
along Pending to Running, Running to Completed, or Running to Failed, and
never leaves a terminal state. -/
theorem claim_C8 (now : String) (wid : Nat) (t : Task) :
    List.Chain' statusStep
      ((List.scanl applyToRecord (initialRecord now) (taskEvents wid t)).map
        TaskRecord.status) := by
  rw [scanl_status_map]
  have hmap : (taskEvents wid t).map ProgressUpdate.status
      = TaskStatus.running ::
        (List.replicate (callFunc t.func (effectiveKwargs t)).1.length TaskStatus.running
          ++ [(terminalUpdate wid t.id (callFunc t.func (effectiveKwargs t)).2).status]) := by
    unfold taskEvents
    rw [List.map_cons, List.map_append, List.map_map]
    rw [show (ProgressUpdate.status ∘ fun c : ℚ × String =>
        runningUpdate wid t.id c.1 c.2) = fun _ => TaskStatus.running from rfl]
    rw [List.map_const']
    rfl
  rw [hmap]
  rw [List.chain'_cons]
  refine ⟨Or.inr (Or.inl ⟨rfl, rfl⟩), ?_⟩
  apply chain_status_running
  · intro c hc
    exact List.eq_of_mem_replicate hc
  · cases (callFunc t.func (effectiveKwargs t)).2 with
    | ok r => exact Or.inr (Or.inr ⟨rfl, Or.inl rfl⟩)
    | error e => exact Or.inr (Or.inr ⟨rfl, Or.inr rfl⟩)

/-! ## Claim C5: broadcast fan-out -/

/-- A connection whose sends all succeed receives every update, in order,
and stays active. -/
theorem deliverTo_all_ok (ok : Nat → Bool) (h : ∀ k, ok k = true) :
    ∀ (n : Nat) (us : List ProgressUpdate), deliverTo ok n us = (us, true) := by
  intro n us
  induction us generalizing n with
  | nil => rfl
  | cons u rest ih => simp [deliverTo, h n, ih (n + 1)]

/-- A session can only end a cycle inactive if one of its own sends
failed. -/
theorem deliverTo_inactive (ok : Nat → Bool) :
    ∀ (n : Nat) (us : List ProgressUpdate),
      (deliverTo ok n us).2 = false → ∃ k, ok k = false := by
  intro n us
  induction us generalizing n with
  | nil => intro h; simp [deliverTo] at h
  | cons u rest ih =>
      intro h
      by_cases hok : ok n = true
      · simp only [deliverTo, hok, if_true] at h
        exact ih (n + 1) h
      · exact ⟨n, by simpa using hok⟩

/-- C5: in one broadcaster cycle, every active session whose connection
does not fail receives every drained event, in emission order, and stays
active -- regardless of failures on other sessions; and a session comes out
inactive only if it was already inactive or one of its own sends failed. -/
theorem claim_C5 (sessions : List Session) (updates : List ProgressUpdate) :
    (∀ (i : Nat) (s0 : Session), sessions[i]? = some s0 → s0.active = true →
      (∀ k, s0.sendOk k = true) →
      ∃ r, (broadcastAll sessions updates)[i]? = some r ∧
        r.1 = updates ∧ r.2.active = true) ∧
    (∀ (i : Nat) (s0 : Session) (r : List ProgressUpdate × Session),
      sessions[i]? = some s0 →
      (broadcastAll sessions updates)[i]? = some r → r.2.active = false →
      s0.active = false ∨ ∃ k, s0.sendOk k = false) := by
  constructor
  · intro i s0 hi hact hok
    have h1 : (broadcastAll sessions updates)[i]?
        = some (updates, { s0 with active := true }) := by
      unfold broadcastAll
      rw [List.getElem?_map, hi]
      simp [hact, deliverTo_all_ok s0.sendOk hok 0 updates]
    exact ⟨(updates, { s0 with active := true }), h1, rfl, rfl⟩
  · intro i s0 r hi hr hina
    unfold broadcastAll at hr
    rw [List.getElem?_map, hi] at hr
    by_cases ha : s0.active = true
    · right
      rw [Option.map_some'] at hr
      have hr2 := Option.some.inj hr
      rw [if_pos ha] at hr2
      apply deliverTo_inactive s0.sendOk 0 updates
      rw [← hr2] at hina
      simpa using hina
    · left
      simpa using ha

/-- C5 witness: two active sessions, the second failing every send; the
first still receives the whole batch. -/
theorem claim_C5_witness :
    ∃ r, (broadcastAll
        [{ active := true, sendOk := fun _ => true },
         { active := true, sendOk := fun _ => false }]
        [runningUpdate 0 "t1" 0 "m"])[0]? = some r ∧
      r.1 = [runningUpdate 0 "t1" 0 "m"] ∧ r.2.active = true :=
  (claim_C5
    [{ active := true, sendOk := fun _ => true },
     { active := true, sendOk := fun _ => false }]
    [runningUpdate 0 "t1" 0 "m"]).1 0
    { active := true, sendOk := fun _ => true } rfl rfl (fun _ => rfl)

/-! ## Claim C9: navigation dispatch -/

/-- find? returns the first element satisfying the predicate. -/
theorem find?_first {α : Type} (p : α → Bool) (l1 l2 : List α) (d : α)
    (h1 : ∀ x ∈ l1, p x = false) (hd : p d = true) :
    (l1 ++ d :: l2).find? p = some d := by
  induction l1 with
  | nil => simp [List.find?_cons, hd]
  | cons x rest ih =>
      rw [List.cons_append, List.find?_cons, h1 x (by simp)]
      exact ih (fun y hy => h1 y (by simp [hy]))

/-- C9: drivers are tried in registration order and the first match does
the lookup; with no matching driver, or a generic driver error, the
navigation-error reply goes to the originating session only; the
authentication-required condition is a distinct signal, not routed to the
error reply at all. -/
theorem claim_C9 :
    (∀ (drivers : List Driver) (m : NavMessage),
      (∀ d ∈ drivers, d.matchesFn m.nav = false) →
      navLookup drivers m
        = NavEmit.error { m with navError := Option.some "Could not Resolve path!" } ∧
      navRecipients (navLookup drivers m) = [m.conn]) ∧
    (∀ (pre post : List Driver) (d : Driver) (m : NavMessage),
      (∀ p ∈ pre, p.matchesFn m.nav = false) → d.matchesFn m.nav = true →
      navLookup (pre ++ d :: post) m = dispatchDriver d m) ∧
    (∀ (d : Driver) (m : NavMessage) (e : String),
      d.lookup m.nav = LookupResult.err e →
      dispatchDriver d m = NavEmit.error { m with navError := Option.some e } ∧
      navRecipients (dispatchDriver d m) = [m.conn]) ∧
    (∀ (d : Driver) (m : NavMessage), d.lookup m.nav = LookupResult.needAuth →
      dispatchDriver d m = NavEmit.request_auth m ∧
      (∀ m2, NavEmit.request_auth m ≠ NavEmit.error m2) ∧
      navRecipients (NavEmit.request_auth m) = []) := by
  refine ⟨?_, ?_, ?_, ?_⟩
  · intro drivers m h
    have hfind : drivers.find? (fun d => d.matchesFn m.nav) = Option.none :=
      List.find?_eq_none.mpr (fun x hx => by simp [h x hx])
    constructor
    · rw [navLookup, hfind]
    · rw [navLookup, hfind]
      rfl
  · intro pre post d m hpre hd
    rw [navLookup, find?_first (fun d => d.matchesFn m.nav) pre post d
      (fun x hx => by simp [hpre x hx]) (by simpa using hd)]
  · intro d m e he
    rw [dispatchDriver, he]
    exact ⟨rfl, rfl⟩
  · intro d m he
    rw [dispatchDriver, he]
    exact ⟨rfl, fun m2 => by simp, rfl⟩

/-- C9 witness: the empty driver registry resolves nothing; the error
reply goes to the originating connection 7 only. -/
theorem claim_C9_witness :
    navLookup []
        { nav := "xyz", conn := 7, files := [], dirs := [],
          details := [], navError := Option.none }
      = NavEmit.error
        { nav := "xyz", conn := 7, files := [], dirs := [],
          details := [], navError := Option.some "Could not Resolve path!" } ∧
    navRecipients (navLookup []
        { nav := "xyz", conn := 7, files := [], dirs := [],
          details := [], navError := Option.none }) = [7] :=
  claim_C9.1 []
    { nav := "xyz", conn := 7, files := [], dirs := [],
      details := [], navError := Option.none }
    (fun d hd => absurd hd (List.not_mem_nil d))

/-! ## Claim C4: pool sizing invariant -/

/-- Alive count over concatenated pools. -/
theorem countAlive_append (l1 l2 : List Bool) :
    countAlive (l1 ++ l2) = countAlive l1 + countAlive l2 :=
  List.count_append true l1 l2

/-- Freshly spawned workers are all alive. -/
theorem countAlive_replicate_true (n : Nat) :
    countAlive (List.replicate n true) = n := by
  simp [countAlive, List.count_replicate]

/-- No more alive workers than tracked processes. -/
theorem countAlive_le_length (l : List Bool) : countAlive l ≤ l.length :=
  List.count_le_length true l

/-- Reaping dead workers does not change the alive count. -/
theorem countAlive_filter (l : List Bool) :
    countAlive (l.filter (fun b => b)) = countAlive l := by
  induction l with
  | nil => rfl
  | cons b rest ih =>
      cases b <;> simp [List.filter_cons, countAlive, List.count_cons] at ih ⊢

/-- A worker death never increases the alive count. -/
theorem countAlive_set_le (l : List Bool) (i : Nat) :
    countAlive (l.set i false) ≤ countAlive l := by
  induction l generalizing i with
  | nil => simp [countAlive]
  | cons b rest ih =>
      cases i with
      | zero =>
          cases b <;> simp [List.set, countAlive, List.count_cons]
      | succ j =>
          have := ih j
          simp [List.set, countAlive, List.count_cons] at this ⊢
          omega

/-- Marking every worker dead leaves none alive. -/
theorem countAlive_map_false (l : List Bool) :
    countAlive (l.map (fun _ => false)) = 0 := by
  rw [List.map_const', countAlive]
  simp [List.count_replicate]

/-- One spawned worker adds one alive worker. -/
theorem countAlive_concat_true (l : List Bool) :
    countAlive (l ++ [true]) = countAlive l + 1 := by
  rw [countAlive_append]
  rfl

/-- The autoscale check preserves the invariant while the pool runs. -/
theorem inv_check_and_scale (cfg : Config) {s : OrchState}
    (hr : s.running = true) (h : Inv cfg s) : Inv cfg (check_and_scale cfg s) := by
  by_cases hcond : cfg.queue_threshold ≤ s.queue.length ∧
      s.core_pool.length + countAlive s.ondemand_pool < cfg.max_workers
  · rw [check_and_scale, if_pos hcond]
    by_cases hfull : cfg.max_workers ≤ s.core_pool.length + s.ondemand_pool.length
    · rw [spawnOndemand, if_pos hfull]
      exact h
    · rw [spawnOndemand, if_neg hfull]
      rcases h with ⟨h1, h2, h3⟩
      refine ⟨?_, ?_, ?_⟩
      · show countAlive s.core_pool + countAlive (s.ondemand_pool ++ [true]) ≤ _
        rw [countAlive_concat_true]
        have hle := countAlive_le_length s.core_pool
        have := hcond.2
        omega
      · intro hrf
        rw [show ({ s with ondemand_pool := s.ondemand_pool ++ [true] } :
            OrchState).running = s.running from rfl, hr] at hrf
        exact Bool.noConfusion hrf
      · intro _
        exact h3 hr
  · rw [check_and_scale, if_neg hcond]
    exact h

/-- Every step of the orchestrator preserves the invariant, provided the
configured core tier fits under max_workers. -/
theorem inv_step {cfg : Config} (hcw : cfg.core_workers ≤ cfg.max_workers)
    {s s2 : OrchState} (h : Inv cfg s) (hstep : Step cfg s s2) : Inv cfg s2 := by
  rcases h with ⟨h1, h2, h3⟩
  cases hstep with
  | start =>
      by_cases hr : s.running = true
      · rw [startT, if_pos hr]
        exact ⟨h1, h2, h3⟩
      · have hr2 : s.running = false := by simpa using hr
        rw [startT, if_neg (by simp [hr2])]
        obtain ⟨hc0, ho0⟩ := h2 hr2
        refine ⟨?_, ?_, ?_⟩
        · show countAlive (s.core_pool ++ List.replicate cfg.core_workers true)
            + countAlive s.ondemand_pool ≤ _
          rw [countAlive_append, countAlive_replicate_true]
          omega
        · intro hrf
          exact Bool.noConfusion hrf
        · intro _
          show countAlive (s.core_pool ++ List.replicate cfg.core_workers true)
            = cfg.core_workers
          rw [countAlive_append, countAlive_replicate_true, hc0]
          omega
  | submit tid now =>
      by_cases hr : s.running = true
      · have hsub : submitRun cfg s tid now = check_and_scale cfg
            { s with
              registry := insertReg s.registry tid (initialRecord now)
              queue := s.queue ++ [tid] } := by
          rw [submitRun, submit_task, if_neg (by simp [hr])]
        rw [hsub]
        exact inv_check_and_scale cfg hr ⟨h1, h2, h3⟩
      · have hr2 : s.running = false := by simpa using hr
        have hsub : submitRun cfg s tid now = s := by
          rw [submitRun, submit_task, if_pos hr2]
        rw [hsub]
        exact ⟨h1, h2, h3⟩
  | dequeue => exact ⟨h1, h2, h3⟩
  | workerExit i =>
      have hset := countAlive_set_le s.ondemand_pool i
      unfold liveWorkers at h1
      refine ⟨?_, ?_, ?_⟩
      · show countAlive s.core_pool + countAlive (s.ondemand_pool.set i false) ≤ _
        omega
      · intro hrf
        obtain ⟨hc0, ho0⟩ := h2 hrf
        refine ⟨hc0, ?_⟩
        show countAlive (s.ondemand_pool.set i false) = 0
        omega
      · intro hrt
        exact h3 hrt
  | poll hrun =>
      have hclean : Inv cfg (cleanupT s) := by
        refine ⟨?_, ?_, ?_⟩
        · show countAlive s.core_pool
            + countAlive (s.ondemand_pool.filter (fun b => b)) ≤ _
          rw [countAlive_filter]
          exact h1
        · intro hrf
          rw [show (cleanupT s).running = s.running from rfl, hrun] at hrf
          exact Bool.noConfusion hrf
        · intro _
          exact h3 hrun
      exact inv_check_and_scale cfg (show (cleanupT s).running = true from hrun) hclean
  | shutdown =>
      by_cases hr : s.running = false
      · rw [shutdownT, if_pos hr]
        exact ⟨h1, h2, h3⟩
      · rw [shutdownT, if_neg hr]
        refine ⟨?_, ?_, ?_⟩
        · show countAlive (s.core_pool.map (fun _ => false))
            + countAlive (s.ondemand_pool.map (fun _ => false)) ≤ _
          rw [countAlive_map_false, countAlive_map_false]
          omega
        · intro _
          exact ⟨countAlive_map_false _, countAlive_map_false _⟩
        · intro hrt
          exact Bool.noConfusion hrt

/-- Every reachable orchestrator state satisfies the invariant. -/
theorem reachable_inv {cfg : Config} (hcw : cfg.core_workers ≤ cfg.max_workers)
    {s : OrchState} (h : Reachable cfg s) : Inv cfg s := by
  induction h with
  | init =>
      refine ⟨?_, fun _ => ⟨rfl, rfl⟩, fun hrt => Bool.noConfusion hrt⟩
      show countAlive [] + countAlive [] ≤ _
      simp [countAlive]
  | step hprev hstep ih => exact inv_step hcw ih hstep

/-- On-demand workers are spawned only by the guarded autoscale check:
the queue had reached the threshold and the live workers were below
max_workers. -/
theorem spawn_guard {cfg : Config} {s s2 : OrchState} (hstep : Step cfg s s2)
    (hgrow : s.ondemand_pool.length < s2.ondemand_pool.length) :
    cfg.queue_threshold ≤ s2.queue.length ∧ liveWorkers s < cfg.max_workers := by
  cases hstep with
  | start =>
      exfalso
      by_cases hr : s.running = true <;>
        simp [startT, hr] at hgrow
  | submit tid now =>
      by_cases hr : s.running = true
      · have hsub : submitRun cfg s tid now = check_and_scale cfg
            { s with
              registry := insertReg s.registry tid (initialRecord now)
              queue := s.queue ++ [tid] } := by
          rw [submitRun, submit_task, if_neg (by simp [hr])]
        rw [hsub] at hgrow ⊢
        by_cases hcond : cfg.queue_threshold ≤ s.queue.length + 1 ∧
            s.core_pool.length + countAlive s.ondemand_pool < cfg.max_workers
        · rw [check_and_scale] at hgrow ⊢
          rw [if_pos (by simpa using hcond)] at hgrow ⊢
          by_cases hfull : cfg.max_workers ≤
              s.core_pool.length + s.ondemand_pool.length
          · exfalso
            rw [spawnOndemand, if_pos (by simpa using hfull)] at hgrow
            simp at hgrow
          · rw [spawnOndemand, if_neg (by simpa using hfull)]
            have hle := countAlive_le_length s.core_pool
            have h2 := hcond.2
            refine ⟨by simpa using hcond.1, ?_⟩
            show countAlive s.core_pool + countAlive s.ondemand_pool < _
            omega
        · exfalso
          rw [check_and_scale, if_neg (by simpa using hcond)] at hgrow
          simp at hgrow
      · exfalso
        have hr2 : s.running = false := by simpa using hr
        rw [submitRun, submit_task, if_pos hr2] at hgrow
        simp at hgrow
  | dequeue =>
      exfalso
      simp [dequeueT] at hgrow
  | workerExit i =>
      exfalso
      simp [exitT, List.length_set] at hgrow
  | poll _hrun =>
      by_cases hcond : cfg.queue_threshold ≤ s.queue.length ∧
          s.core_pool.length + countAlive (s.ondemand_pool.filter (fun b => b))
            < cfg.max_workers
      · rw [pollT, check_and_scale] at hgrow ⊢
        rw [if_pos (by simpa [cleanupT] using hcond)] at hgrow ⊢
        by_cases hfull : cfg.max_workers ≤
            s.core_pool.length + (s.ondemand_pool.filter (fun b => b)).length
        · exfalso
          rw [spawnOndemand, if_pos (by simpa [cleanupT] using hfull)] at hgrow
          have := List.length_filter_le (fun b => b) s.ondemand_pool
          simp [cleanupT] at hgrow
          omega
        · rw [spawnOndemand, if_neg (by simpa [cleanupT] using hfull)]
          have hle := countAlive_le_length s.core_pool
          have hcf := countAlive_filter s.ondemand_pool
          have h2 := hcond.2
          refine ⟨by simpa [cleanupT] using hcond.1, ?_⟩
          show countAlive s.core_pool + countAlive s.ondemand_pool < _
          omega
      · exfalso
        rw [pollT, check_and_scale, if_neg (by simpa [cleanupT] using hcond)] at hgrow
        have := List.length_filter_le (fun b => b) s.ondemand_pool
        simp [cleanupT] at hgrow
        omega
  | shutdown =>
      exfalso
      by_cases hr : s.running = false <;>
        simp [shutdownT, hr] at hgrow

/-- C4 amended: provided core_workers does not exceed max_workers, every
reachable state has at most max_workers live workers and at most
max_workers - core_workers alive on-demand workers; and an on-demand worker
is spawned only when the queue depth has reached queue_threshold and the
live-worker count is below max_workers. -/
theorem claim_C4_amended (cfg : Config)
    (hcw : cfg.core_workers ≤ cfg.max_workers) :
    (∀ s, Reachable cfg s →
      liveWorkers s ≤ cfg.max_workers ∧
      countAlive s.ondemand_pool ≤ cfg.max_workers - cfg.core_workers) ∧
    (∀ s s2, Step cfg s s2 → s.ondemand_pool.length < s2.ondemand_pool.length →
      cfg.queue_threshold ≤ s2.queue.length ∧ liveWorkers s < cfg.max_workers) := by
  constructor
  · intro s hs
    obtain ⟨h1, h2, h3⟩ := reachable_inv hcw hs
    refine ⟨h1, ?_⟩
    unfold liveWorkers at h1
    by_cases hr : s.running = true
    · have := h3 hr
      omega
    · have hr2 : s.running = false := by simpa using hr
      have := (h2 hr2).2
      omega
  · intro s s2 hstep hgrow
    exact spawn_guard hstep hgrow

/-- C4 witness: with one core worker and max two, the initial state. -/
theorem claim_C4_witness :
    liveWorkers initState ≤ 2 ∧ countAlive initState.ondemand_pool ≤ 2 - 1 :=
  (claim_C4_amended { core_workers := 1, max_workers := 2, queue_threshold := 3 }
    (by decide)).1 initState Reachable.init

/-- C4 counterexample: with core_workers = 2 and max_workers = 1, the state
right after start() is reachable and has two live workers, exceeding
max_workers. -/
theorem claim_C4_counterexample :
    Reachable { core_workers := 2, max_workers := 1, queue_threshold := 5 }
      (startT { core_workers := 2, max_workers := 1, queue_threshold := 5 } initState) ∧
    liveWorkers
      (startT { core_workers := 2, max_workers := 1, queue_threshold := 5 } initState) = 2 ∧
    ¬ (liveWorkers
        (startT { core_workers := 2, max_workers := 1, queue_threshold := 5 } initState)
      ≤ ({ core_workers := 2, max_workers := 1, queue_threshold := 5 } : Config).max_workers) :=
  ⟨Reachable.step Reachable.init (Step.start initState), rfl, by decide⟩

end FileBro
